import Mathlib

/-!
Shallow embedding of the ShippingCo API server (src/server.js): a single-file
Express application over three nedb document stores (users, shipments, quotes).

Modelling conventions:
- JSON string fields are Lean `String`s. A field that may be absent from the
  request body is an `Option String` where the source distinguishes absence;
  where the source only tests JS truthiness (`x || default`), the empty string
  and absence behave identically, captured by `jsOr` / `jsOrOpt`.
- A nedb store is a `List` of records in insertion order. `findOne` is
  `List.find?` (first match); `update`/`remove` with default options act on
  the first matching document only, modelled by `updateFirstById` /
  `removeFirstById`. nedb enforces a unique index on `_id`.
- Timestamps (`new Date().toISOString()`) and generated identifiers
  (`nanoid()`, `trackingNumber()`) are opaque strings passed in as parameters.
- `bcrypt.hash` and `jwt.sign` are external collaborators, passed in as
  opaque function parameters.
- Quote request bodies are schemaless; a quote document is an association
  list of string fields, with JS object-spread override semantics (`setKey`).
-/

namespace Ship24

/-- JS `a || b` for a string already known present: `""` is falsy. -/
def jsOr (a b : String) : String := if a = "" then b else a

/-- Models the JS string method `trim`: strips leading and trailing
whitespace. -/
def jsTrim (s : String) : String :=
  ⟨((s.data.dropWhile Char.isWhitespace).reverse.dropWhile Char.isWhitespace).reverse⟩

/-- Models the JS string method `toLowerCase`: folds each character to
lower case. -/
def jsToLower (s : String) : String := ⟨s.data.map Char.toLower⟩

/-- JS `x || d` where the field may be absent (`undefined`): both absence
and the empty string are falsy and select the default. -/
def jsOrOpt (a : Option String) (d : String) : String :=
  match a with
  | none => d
  | some s => if s = "" then d else s

/-- A tracking event, embedded in a shipment's ledger (server.js:165-171). -/
structure Event where
  id : String
  time : String
  status : String
  location : String
  note : String
deriving DecidableEq, Repr

/-- A shipment document as stored in the shipments collection
(server.js:130-142), with the nedb-assigned `_id`. -/
structure Shipment where
  _id : String
  trackingNumber : String
  customer : String
  email : String
  origin : String
  destination : String
  service : String
  weight : String
  status : String
  createdAt : String
  updatedAt : String
  events : List Event
deriving DecidableEq, Repr

/-- The shipments store: a list of documents in insertion order. -/
abbrev ShipStore := List Shipment

/-- Models `shipments.findOne` on `_id`: first document with the given id. -/
def findById (store : ShipStore) (id : String) : Option Shipment :=
  store.find? (fun s => s._id == id)

/-- Models `shipments.update` on `_id` with default options: applies the
field update to the first matching document only. -/
def updateFirstById : ShipStore → String → (Shipment → Shipment) → ShipStore
  | [], _, _ => []
  | s :: r, id, f => if s._id == id then f s :: r else s :: updateFirstById r id f

/-- Models `shipments.remove` on `_id` with default options: removes the
first matching document only. -/
def removeFirstById : ShipStore → String → ShipStore
  | [], _ => []
  | s :: r, id => if s._id == id then r else s :: removeFirstById r id

/-! ## Shipment creation (POST /api/shipments, server.js:127-144) -/

/-- The request body of shipment creation. `customer`, `origin`,
`destination` are passed through verbatim by the source (no default), so they
are plain strings; `email`, `service`, `weight`, `status` go through
`|| default` and are also plain strings (absence behaves as `""` under
truthiness, see `jsOr`); `events` is kept optional because the source tests
`body.events && Array.isArray(body.events)`, which distinguishes a supplied
array (even an empty one) from an absent or non-array value. -/
structure CreateBody where
  customer : String
  email : String
  origin : String
  destination : String
  service : String
  weight : String
  status : String
  events : Option (List Event)
deriving DecidableEq, Repr

/-- The document inserted by POST /api/shipments (server.js:130-142).
`now` is the request timestamp, `tn` the generated tracking number, `eid`
the generated id for the seed event, `docId` the nedb-assigned `_id`. -/
def createShipment (body : CreateBody) (now tn eid docId : String) : Shipment where
  _id := docId
  trackingNumber := tn
  customer := body.customer
  email := jsOr body.email ""
  origin := body.origin
  destination := body.destination
  service := jsOr body.service "Standard"
  weight := jsOr body.weight ""
  status := jsOr body.status "Created"
  createdAt := now
  updatedAt := now
  events :=
    match body.events with
    | some l => l
    | none => [⟨eid, now, "Created", jsOr body.origin "", "Shipment created"⟩]

/-! ## Shipment patch (PATCH /api/shipments/:id, server.js:146-153) -/

/-- A shallow patch body: each field optionally supplied. The caller cannot
change `_id` (nedb rejects `$set` on `_id`), and any caller-supplied
`updatedAt` is overwritten by `patch.updatedAt = new Date().toISOString()`
before the `$set` (server.js:149), so neither appears here. -/
structure ShipmentPatch where
  trackingNumber : Option String := none
  customer : Option String := none
  email : Option String := none
  origin : Option String := none
  destination : Option String := none
  service : Option String := none
  weight : Option String := none
  status : Option String := none
  createdAt : Option String := none
  events : Option (List Event) := none
deriving DecidableEq, Repr

/-- Applies the `$set` of the patch onto one document: every supplied field
overwrites, and `updatedAt` is always set to `now` (server.js:149-150). -/
def applyPatch (s : Shipment) (p : ShipmentPatch) (now : String) : Shipment where
  _id := s._id
  trackingNumber := p.trackingNumber.getD s.trackingNumber
  customer := p.customer.getD s.customer
  email := p.email.getD s.email
  origin := p.origin.getD s.origin
  destination := p.destination.getD s.destination
  service := p.service.getD s.service
  weight := p.weight.getD s.weight
  status := p.status.getD s.status
  createdAt := p.createdAt.getD s.createdAt
  updatedAt := now
  events := p.events.getD s.events

/-- Responses of the shipment-document routes: the source's PATCH handler
always answers 200 with `res.json(updated)`, where `updated` may be `null`
(`Option.none`); the event routes may answer 404 `not_found`. -/
inductive ShipResp where
  | ok : Option Shipment → ShipResp
  | notFound : ShipResp
deriving DecidableEq, Repr

/-- PATCH /api/shipments/:id (server.js:146-153): updates the first matching
document, then re-reads it and answers 200 with whatever `findOne` returned —
there is no existence check, so a missing id yields `ok none` (JSON `null`),
never 404. -/
def patchHandler (store : ShipStore) (id : String) (p : ShipmentPatch)
    (now : String) : ShipResp × ShipStore :=
  let store' := updateFirstById store id (fun s => applyPatch s p now)
  (.ok (findById store' id), store')

/-! ## Shipment delete (DELETE /api/shipments/:id, server.js:155-159) -/

/-- DELETE /api/shipments/:id: removes the first matching document and
always answers `{ ok: true }` (the Bool in the result). -/
def deleteHandler (store : ShipStore) (id : String) : Bool × ShipStore :=
  (true, removeFirstById store id)

/-! ## Event append (POST /api/shipments/:id/events, server.js:162-179) -/

/-- Request body for appending an event: all four fields are read through
`body.x || default`, but `Option` keeps supplied-empty and absent separate
in statements (they behave identically, see `jsOrOpt`). -/
structure AppendBody where
  time : Option String := none
  status : Option String := none
  location : Option String := none
  note : Option String := none
deriving DecidableEq, Repr

/-- The event object constructed at server.js:165-171. -/
def mkEvent (body : AppendBody) (now eid : String) : Event where
  id := eid
  time := jsOrOpt body.time now
  status := jsOrOpt body.status "In Transit"
  location := jsOrOpt body.location ""
  note := jsOrOpt body.note ""

/-- Effect of the event-append `$set` on the found shipment
(server.js:174-176): the new event is unshifted to the front, `updatedAt`
refreshed, and `status` set to `body.status || s.status`. -/
def appendEventS (s : Shipment) (body : AppendBody) (now eid : String) : Shipment :=
  { s with
    events := mkEvent body now eid :: s.events
    updatedAt := now
    status := jsOrOpt body.status s.status }

/-- POST /api/shipments/:id/events (server.js:162-179): 404 when the id is
absent; otherwise updates the document and answers 201 with the re-read
document. -/
def appendEventHandler (store : ShipStore) (id : String) (body : AppendBody)
    (now eid : String) : ShipResp × ShipStore :=
  match findById store id with
  | none => (.notFound, store)
  | some _ =>
    let store' := updateFirstById store id (fun s => appendEventS s body now eid)
    (.ok (findById store' id), store')

/-! ## Event removal (DELETE /api/shipments/:id/events/:eventId,
server.js:181-189) -/

/-- Effect of the event-removal `$set` on the found shipment
(server.js:185-186): keeps the events whose id differs from `eventId`
(in order) and refreshes `updatedAt`; no other field is touched. -/
def removeEventS (s : Shipment) (eventId now : String) : Shipment :=
  { s with
    events := s.events.filter (fun ev => ev.id != eventId)
    updatedAt := now }

/-- DELETE /api/shipments/:id/events/:eventId (server.js:181-189): 404 when
the shipment id is absent; otherwise updates the document and answers 200
with the re-read document. -/
def removeEventHandler (store : ShipStore) (id eventId : String)
    (now : String) : ShipResp × ShipStore :=
  match findById store id with
  | none => (.notFound, store)
  | some _ =>
    let store' := updateFirstById store id (fun s => removeEventS s eventId now)
    (.ok (findById store' id), store')

/-! ## Public tracking lookup (GET /api/track/:trackingNumber, server.js:87-92)

The source matches with `new RegExp('^' + t + '$', 'i')`, i.e. the raw
(trimmed) URL parameter is spliced into an anchored case-insensitive regular
expression. We model JS regex matching for the fragment of patterns the
claims exercise: literal characters and the `.` wildcard. For a pattern made
only of literal characters this coincides with case-insensitive whole-string
equality; a `.` in the lookup string matches any single character. -/

/-- Case-insensitive character comparison, as the regex `i` flag folds
character case. -/
def charCI (a b : Char) : Bool := a.toLower == b.toLower

/-- Anchored matching of the pattern `'^' ++ pat ++ '$'` with flag `i`
against a whole string, for patterns of literal characters and the `.`
wildcard (which matches any single character). -/
def regexCI : List Char → List Char → Bool
  | [], [] => true
  | p :: ps, c :: cs => (p == '.' || charCI p c) && regexCI ps cs
  | _, _ => false

/-- Response of the public tracking route. -/
inductive TrackResp where
  | found : Shipment → TrackResp
  | notFound : TrackResp
deriving DecidableEq, Repr

/-- GET /api/track/:trackingNumber (server.js:87-92): trims the parameter,
then `findOne` with the anchored case-insensitive regex built from it;
404 when nothing matches. -/
def trackHandler (store : ShipStore) (raw : String) : TrackResp :=
  let t := jsTrim raw
  match store.find? (fun s => regexCI t.data s.trackingNumber.data) with
  | some s => .found s
  | none => .notFound

/-- Case-insensitive whole-string equality: same length, characters equal
up to case at every position. -/
def ciEqChars : List Char → List Char → Bool
  | [], [] => true
  | a :: as, b :: bs => charCI a b && ciEqChars as bs
  | _, _ => false

/-- Case-insensitive exact whole-string comparison of two strings. -/
def ciEqStr (a b : String) : Bool := ciEqChars a.data b.data

/-- The spec's words for the lookup (`getByTrackingNumber`): "case-insensitive
exact match on the whole string (not substring); fails with NotFound if
absent". Stated as a second definition, to be compared with `trackHandler`. -/
def specTrackLookup (store : ShipStore) (raw : String) : TrackResp :=
  match store.find? (fun s => ciEqStr (jsTrim raw) s.trackingNumber) with
  | some s => .found s
  | none => .notFound

/-! ## Registration (POST /api/auth/register, server.js:62-73) -/

/-- A credential record in the users store (server.js:70): `password` holds
the bcrypt hash, `role` is fixed to `"admin"`. -/
structure Cred where
  email : String
  password : String
  role : String
  createdAt : String
deriving DecidableEq, Repr

/-- Response of the registration route: 400 `missing_fields`,
403 `registration_closed`, or 200 with the token and the user's email. -/
inductive RegResp where
  | missingFields : RegResp
  | registrationClosed : RegResp
  | session : String → String → RegResp
deriving DecidableEq, Repr

/-- POST /api/auth/register (server.js:62-73). `hash` models `bcrypt.hash`
and `sign` models `signToken` (jwt), both external collaborators. The
`!email || !password` truthiness test makes the empty string count as a
missing field. A non-empty users store closes registration before any
credential is touched; otherwise the credential is inserted (email folded
to lowercase) and a session is returned. -/
def registerHandler (hash : String → String) (sign : Cred → String)
    (email password : String) (store : List Cred) (now : String) :
    RegResp × List Cred :=
  if email = "" ∨ password = "" then (.missingFields, store)
  else if store.length > 0 then (.registrationClosed, store)
  else
    let u : Cred := ⟨jsToLower email, hash password, "admin", now⟩
    (.session (sign u) u.email, store ++ [u])

/-! ## Quote creation (POST /api/quotes, server.js:95-100)

The quote body is schemaless: a JS object, modelled as an association list
of string fields (request bodies are parsed JSON objects, so keys are
distinct). `{ ...q, status: 'new', createdAt: now }` spreads the body and
then overrides the two fields, keeping every other field as supplied. -/

/-- Field lookup on a document object. -/
def jsGet (o : List (String × String)) (k : String) : Option String :=
  (o.find? (fun p => p.1 == k)).map (fun p => p.2)

/-- JS object-literal override semantics: if the key is already present, its
(first) binding is replaced in place; otherwise the binding is appended. -/
def setKey (o : List (String × String)) (k v : String) : List (String × String) :=
  if o.any (fun p => p.1 == k) then
    o.map (fun p => if p.1 == k then (k, v) else p)
  else o ++ [(k, v)]

/-- The document inserted by POST /api/quotes (server.js:98):
`{ ...q, status: 'new', createdAt: now }`. -/
def createQuote (q : List (String × String)) (now : String) :
    List (String × String) :=
  setKey (setKey q "status" "new") "createdAt" now

/-! ## Helper lemmas about the store primitives -/

/-- Updating the first document with a given id and then looking that id up
finds exactly the updated document, provided the update preserves `_id`. -/
theorem findById_updateFirstById (store : ShipStore) (id : String)
    (f : Shipment → Shipment) (hf : ∀ s, (f s)._id = s._id) :
    findById (updateFirstById store id f) id = (findById store id).map f := by
  induction store with
  | nil => rfl
  | cons s r ih =>
    simp only [findById] at ih ⊢
    by_cases h : (s._id == id) = true
    · simp [updateFirstById, h, List.find?_cons, hf]
    · simp [updateFirstById, h, List.find?_cons, ih]

/-- An update targeting an id that matches no document leaves the store
unchanged. -/
theorem updateFirstById_of_none (store : ShipStore) (id : String)
    (f : Shipment → Shipment) (h : findById store id = none) :
    updateFirstById store id f = store := by
  induction store with
  | nil => rfl
  | cons s r ih =>
    simp only [findById, List.find?_cons] at h
    by_cases hs : (s._id == id) = true
    · simp [hs] at h
    · simp only [hs] at h
      simp [updateFirstById, hs, ih h]

/-- Removal targeting an id that matches no document leaves the store
unchanged. -/
theorem removeFirstById_of_none (store : ShipStore) (id : String)
    (h : findById store id = none) : removeFirstById store id = store := by
  induction store with
  | nil => rfl
  | cons s r ih =>
    simp only [findById, List.find?_cons] at h
    by_cases hs : (s._id == id) = true
    · simp [hs] at h
    · simp only [hs] at h
      simp [removeFirstById, hs, ih h]

/-- When document ids are pairwise distinct (nedb keeps a unique index on
`_id`), removing the first document with a given id leaves no document with
that id behind. -/
theorem findById_removeFirstById_of_nodup (store : ShipStore) (id : String)
    (h : (store.map Shipment._id).Nodup) :
    findById (removeFirstById store id) id = none := by
  induction store with
  | nil => rfl
  | cons s r ih =>
    rw [List.map_cons, List.nodup_cons] at h
    by_cases hs : (s._id == id) = true
    · have hid : s._id = id := by simpa using hs
      simp only [removeFirstById, if_pos hs, findById]
      rw [List.find?_eq_none]
      intro x hx hpx
      have hxid : x._id = id := by simpa using hpx
      exact h.1 (List.mem_map.mpr ⟨x, hx, hxid.trans hid.symm⟩)
    · simp only [removeFirstById, if_neg hs, findById, List.find?_cons]
      simp only [hs]
      exact ih h.2

/-! ## Helper lemmas about the regex model -/

/-- An alphanumeric character is not the dot wildcard. -/
theorem isAlphanum_not_dot {c : Char} (h : c.isAlphanum = true) :
    (c == '.') = false := by
  cases hq : (c == '.') with
  | false => rfl
  | true =>
    have : c = '.' := eq_of_beq hq
    subst this
    exact absurd h (by decide)

/-- On patterns without the dot wildcard, anchored case-insensitive regex
matching is exactly case-insensitive whole-string equality. -/
theorem regexCI_eq_ciEqChars (p : List Char) (hp : ∀ c ∈ p, (c == '.') = false) :
    ∀ s, regexCI p s = ciEqChars p s := by
  induction p with
  | nil => intro s; cases s <;> rfl
  | cons a ps ih =>
    intro s
    cases s with
    | nil => rfl
    | cons b bs =>
      have ha := hp a (List.mem_cons_self a ps)
      simp only [regexCI, ciEqChars, ha, Bool.false_or]
      rw [ih (fun c hc => hp c (List.mem_cons_of_mem a hc)) bs]

/-! ## Helper lemmas about quote documents -/

/-- Replacing the bindings of a present key makes lookup of that key yield
the new value. -/
theorem find?_map_setKey_self (o : List (String × String)) (k v : String)
    (h : o.any (fun p => p.1 == k) = true) :
    (o.map (fun p => if p.1 == k then (k, v) else p)).find? (fun p => p.1 == k)
      = some (k, v) := by
  induction o with
  | nil => simp at h
  | cons a r ih =>
    rw [List.any_cons] at h
    by_cases ha : a.1 = k
    · have ha2 : (a.1 == k) = true := by simp [ha]
      have hkv : (((k, v) : String × String).1 == k) = true := by simp
      simp only [List.map_cons, List.find?_cons, if_pos ha2, hkv]
    · have ha2 : (a.1 == k) = false := by simp [ha]
      have h' : (r.any fun p => p.1 == k) = true := by simpa [ha2] using h
      simp only [List.map_cons]
      rw [if_neg (by simp [ha]), List.find?_cons]
      simp only [ha2]
      exact ih h'

/-- Replacing the bindings of key `k` does not affect lookup of a different
key. -/
theorem find?_map_setKey_other (o : List (String × String)) (k v k' : String)
    (hk : k' ≠ k) :
    (o.map (fun p => if p.1 == k then (k, v) else p)).find? (fun p => p.1 == k')
      = o.find? (fun p => p.1 == k') := by
  have hb : (k == k') = false := by simp [Ne.symm hk]
  induction o with
  | nil => rfl
  | cons a r ih =>
    by_cases ha : a.1 = k
    · have ha2 : (a.1 == k) = true := by simp [ha]
      have ha1 : (a.1 == k') = false := by rw [ha]; exact hb
      have hkv : (((k, v) : String × String).1 == k') = false := hb
      simp only [List.map_cons, List.find?_cons, if_pos ha2, hkv, ha1]
      exact ih
    · simp only [List.map_cons]
      rw [if_neg (by simp [ha]), List.find?_cons, List.find?_cons]
      cases hc : (a.1 == k') with
      | true => simp only [hc]
      | false =>
        simp only [hc]
        exact ih

/-- Looking up the key just set yields the new value. -/
theorem jsGet_setKey_self (o : List (String × String)) (k v : String) :
    jsGet (setKey o k v) k = some v := by
  unfold setKey jsGet
  by_cases h : o.any (fun p => p.1 == k) = true
  · rw [if_pos h, find?_map_setKey_self o k v h]
    rfl
  · rw [if_neg h]
    have hnone : o.find? (fun p => p.1 == k) = none :=
      List.find?_eq_none.mpr (by
        intro x hx hpx
        exact h (List.any_of_mem hx hpx))
    rw [List.find?_append, hnone, Option.none_or]
    simp [List.find?_cons]

/-- Looking up a key different from the one just set is unaffected. -/
theorem jsGet_setKey_other (o : List (String × String)) (k v k' : String)
    (hk : k' ≠ k) : jsGet (setKey o k v) k' = jsGet o k' := by
  unfold setKey jsGet
  by_cases h : o.any (fun p => p.1 == k) = true
  · rw [if_pos h, find?_map_setKey_other o k v k' hk]
  · rw [if_neg h, List.find?_append]
    have hb : (k == k') = false := by simp [Ne.symm hk]
    have hkv : (((k, v) : String × String).1 == k') = false := hb
    simp only [List.find?_cons, hkv, List.find?_nil, Option.or_none]

/-! ## Concrete sample data used by witnesses and counterexamples -/

/-- A sample timestamp. -/
def t0 : String := "2024-01-01T00:00:00.000Z"

/-- A later sample timestamp. -/
def t1 : String := "2024-01-02T00:00:00.000Z"

/-- A sample ledger event. -/
def ev0 : Event :=
  ⟨"EVAAA", t0, "Created", "Los Angeles", "Shipment created"⟩

/-- A sample stored shipment. -/
def ship0 : Shipment :=
  ⟨"id0", "SCABC", "Acme Corp", "ops@acme.com", "Los Angeles", "Tokyo",
   "Air", "250", "Created", t0, t0, [ev0]⟩

/-! ## Claim C1 -/

/-- C1 counterexample: PATCH on an id that refers to no shipment does not
fail with NotFound — the handler answers with a success response whose body
is `null` (`ok none`), and the store keeps not containing the id. -/
theorem c1_counterexample :
    (patchHandler [ship0] "missing" {} t1).1 = ShipResp.ok none ∧
    (patchHandler [ship0] "missing" {} t1).1 ≠ ShipResp.notFound := by
  constructor
  · decide
  · decide

/-- C1 (amended): for every id that does not refer to an existing shipment,
PATCH /api/shipments/:id performs no update and returns a 200 success
response with a null body (`ok none`) — it does not fail with NotFound. -/
theorem c1_patch_missing_id (store : ShipStore) (id : String)
    (p : ShipmentPatch) (now : String) (h : findById store id = none) :
    patchHandler store id p now = (ShipResp.ok none, store) := by
  simp only [patchHandler]
  rw [updateFirstById_of_none store id _ h, h]

/-- Witness for C1: the amended theorem applied at a concrete store and
missing id. -/
theorem c1_witness :
    findById [ship0] "missing" = none ∧
    patchHandler [ship0] "missing" {} t1 = (ShipResp.ok none, [ship0]) :=
  ⟨by decide, c1_patch_missing_id [ship0] "missing" {} t1 (by decide)⟩

/-! ## Claim C2 -/

/-- C2 counterexample: the lookup string `.....` (after trimming) is not
case-insensitively equal to the stored tracking number `SCABC`, yet the
tracking route returns that shipment, because the route builds a regular
expression from the raw lookup string and `.` is a wildcard. -/
theorem c2_counterexample :
    trackHandler [ship0] "....." = TrackResp.found ship0 ∧
    ciEqStr (jsTrim ".....") ship0.trackingNumber = false := by
  constructor
  · decide
  · decide

/-- C2 (amended): for lookup strings whose trimmed form consists only of
alphanumeric characters (so no regex metacharacters), the tracking route
behaves exactly as the spec's case-insensitive whole-string lookup: it
returns a shipment iff its trackingNumber equals the trimmed lookup string
case-insensitively, and 404 otherwise. In general the route performs an
anchored case-insensitive regex match built from the lookup string. -/
theorem c2_track_ci_exact (store : ShipStore) (raw : String)
    (h : ∀ c ∈ (jsTrim raw).data, c.isAlphanum = true) :
    trackHandler store raw = specTrackLookup store raw := by
  simp only [trackHandler, specTrackLookup]
  have hpred : (fun s : Shipment => regexCI (jsTrim raw).data s.trackingNumber.data)
      = (fun s : Shipment => ciEqStr (jsTrim raw) s.trackingNumber) := by
    funext s
    exact regexCI_eq_ciEqChars (jsTrim raw).data
      (fun c hc => isAlphanum_not_dot (h c hc)) s.trackingNumber.data
  rw [hpred]

/-- Witness for C2: a lowercase lookup of an uppercase tracking number goes
through the amended theorem and finds the shipment. -/
theorem c2_witness :
    (∀ c ∈ (jsTrim "scabc").data, c.isAlphanum = true) ∧
    trackHandler [ship0] "scabc" = specTrackLookup [ship0] "scabc" ∧
    trackHandler [ship0] "scabc" = TrackResp.found ship0 :=
  ⟨by decide, c2_track_ci_exact [ship0] "scabc" (by decide), by decide⟩

/-! ## Claim C3 -/

/-- A creation body that supplies an explicitly empty events array. -/
def bodyEmptyEvents : CreateBody :=
  ⟨"Acme Corp", "", "LA", "NYC", "", "", "", some []⟩

/-- A creation body that supplies no events array. -/
def bodyNoEvents : CreateBody :=
  ⟨"Acme Corp", "", "LA", "NYC", "", "", "", none⟩

/-- C3 counterexample: creating a shipment whose body supplies an empty
events array yields a shipment with an empty events ledger, so the events
list is not non-empty for every creation input. -/
theorem c3_counterexample :
    (createShipment bodyEmptyEvents t0 "SCNEW" "EV9" "id9").events = [] := by
  decide

/-- C3 (amended): when the caller supplies no events array, the created
shipment's events list is exactly one synthetic "Created" event located at
the supplied origin, hence non-empty; when the caller supplies an events
array (even an empty one) it is stored as given, so the ledger can be
empty. -/
theorem c3_create_events (body : CreateBody) (now tn eid docId : String) :
    (body.events = none →
      (createShipment body now tn eid docId).events
        = [⟨eid, now, "Created", jsOr body.origin "", "Shipment created"⟩] ∧
      (createShipment body now tn eid docId).events ≠ []) ∧
    (∀ l, body.events = some l →
      (createShipment body now tn eid docId).events = l) := by
  constructor
  · intro h
    simp [createShipment, h]
  · intro l h
    simp [createShipment, h]

/-- Witness for C3: creating without an events array seeds the ledger with
the single synthetic event. -/
theorem c3_witness :
    (createShipment bodyNoEvents t0 "SCNEW" "EV9" "id9").events
      = [⟨"EV9", t0, "Created", jsOr bodyNoEvents.origin "", "Shipment created"⟩] ∧
    (createShipment bodyNoEvents t0 "SCNEW" "EV9" "id9").events ≠ [] :=
  (c3_create_events bodyNoEvents t0 "SCNEW" "EV9" "id9").1 rfl

/-! ## Claim C4 -/

/-- A patch body that supplies a replacement tracking number. -/
def patchTN : ShipmentPatch := { trackingNumber := some "HACK" }

/-- C4 counterexample: a PATCH whose body carries a `trackingNumber` field
overwrites the shipment's tracking number — it is not immutable under the
patch operation. -/
theorem c4_counterexample :
    (findById (patchHandler [ship0] "id0" patchTN t1).2 "id0").map
        Shipment.trackingNumber = some "HACK" ∧
    ship0.trackingNumber = "SCABC" := by
  constructor
  · decide
  · decide

/-- C4 (amended): the tracking number is assigned at creation; event append
and event removal never change it, and a patch preserves it provided the
patch body does not itself supply a `trackingNumber` field. (No operation
enforces store-wide uniqueness; it is relied on from generation entropy.) -/
theorem c4_trackingNumber_stable (s : Shipment) (body : AppendBody)
    (p : ShipmentPatch) (eventId now eid : String) :
    (appendEventS s body now eid).trackingNumber = s.trackingNumber ∧
    (removeEventS s eventId now).trackingNumber = s.trackingNumber ∧
    (p.trackingNumber = none →
      (applyPatch s p now).trackingNumber = s.trackingNumber) := by
  refine ⟨rfl, rfl, ?_⟩
  intro h
  simp [applyPatch, h]

/-- Witness for C4: the stability theorem applied at a concrete shipment
with a patch that supplies no tracking number. -/
theorem c4_witness :
    (appendEventS ship0 {} t1 "EV2").trackingNumber = ship0.trackingNumber ∧
    (removeEventS ship0 "EVAAA" t1).trackingNumber = ship0.trackingNumber ∧
    (applyPatch ship0 {} t1).trackingNumber = ship0.trackingNumber := by
  have h := c4_trackingNumber_stable ship0 {} {} "EVAAA" t1 "EV2"
  exact ⟨h.1, h.2.1, h.2.2 rfl⟩

/-! ## Claim C5 -/

/-- C5: appending an event to an existing shipment returns and stores the
shipment with the new event at the front (prior events following in order)
and `updatedAt` refreshed; a supplied non-empty status becomes both the
shipment status and the front event's status; with no supplied status the
front event defaults to "In Transit" and the shipment status is unchanged. -/
theorem c5_append_event (store : ShipStore) (id : String) (body : AppendBody)
    (now eid : String) (s : Shipment) (h : findById store id = some s) :
    appendEventHandler store id body now eid
      = (.ok (some (appendEventS s body now eid)),
         updateFirstById store id (fun x => appendEventS x body now eid)) ∧
    (appendEventS s body now eid).events = mkEvent body now eid :: s.events ∧
    (appendEventS s body now eid).updatedAt = now ∧
    (∀ x, body.status = some x → x ≠ "" →
      (appendEventS s body now eid).status = x ∧
      ((appendEventS s body now eid).events.head?.map Event.status) = some x) ∧
    (body.status = none →
      (appendEventS s body now eid).status = s.status ∧
      ((appendEventS s body now eid).events.head?.map Event.status)
        = some "In Transit") := by
  refine ⟨?_, rfl, rfl, ?_, ?_⟩
  · simp only [appendEventHandler, h]
    rw [findById_updateFirstById store id (fun x => appendEventS x body now eid)
          (fun x => rfl), h]
    simp
  · intro x hx hne
    constructor
    · simp [appendEventS, jsOrOpt, hx, hne]
    · simp [appendEventS, mkEvent, jsOrOpt, hx, hne]
  · intro hn
    constructor
    · simp [appendEventS, jsOrOpt, hn]
    · simp [appendEventS, mkEvent, jsOrOpt, hn]

/-- Witness for C5: appending a "Delivered" event to a concrete stored
shipment sets the shipment status to "Delivered". -/
theorem c5_witness :
    appendEventHandler [ship0] "id0" { status := some "Delivered" } t1 "EV2"
      = (.ok (some (appendEventS ship0 { status := some "Delivered" } t1 "EV2")),
         updateFirstById [ship0] "id0"
           (fun x => appendEventS x { status := some "Delivered" } t1 "EV2")) ∧
    (appendEventS ship0 { status := some "Delivered" } t1 "EV2").status
      = "Delivered" := by
  have h := c5_append_event [ship0] "id0" { status := some "Delivered" } t1 "EV2"
    ship0 (by decide)
  exact ⟨h.1, (h.2.2.2.1 "Delivered" rfl (by decide)).1⟩

/-! ## Claim C6 -/

/-- C6: removing an event from an existing shipment returns and stores the
shipment with only the matching events dropped: `status` and every field
other than `events`/`updatedAt` are untouched, the remaining events keep
their relative order (the new ledger is a sublist of the old), `updatedAt`
is refreshed, and when no event carries the given id the ledger is
unchanged. -/
theorem c6_remove_event (store : ShipStore) (id eventId now : String)
    (s : Shipment) (h : findById store id = some s) :
    removeEventHandler store id eventId now
      = (.ok (some (removeEventS s eventId now)),
         updateFirstById store id (fun x => removeEventS x eventId now)) ∧
    (removeEventS s eventId now).status = s.status ∧
    (removeEventS s eventId now).trackingNumber = s.trackingNumber ∧
    (removeEventS s eventId now).customer = s.customer ∧
    (removeEventS s eventId now).email = s.email ∧
    (removeEventS s eventId now).origin = s.origin ∧
    (removeEventS s eventId now).destination = s.destination ∧
    (removeEventS s eventId now).service = s.service ∧
    (removeEventS s eventId now).weight = s.weight ∧
    (removeEventS s eventId now).createdAt = s.createdAt ∧
    (removeEventS s eventId now)._id = s._id ∧
    List.Sublist (removeEventS s eventId now).events s.events ∧
    (removeEventS s eventId now).updatedAt = now ∧
    ((∀ e ∈ s.events, e.id ≠ eventId) →
      (removeEventS s eventId now).events = s.events) := by
  refine ⟨?_, rfl, rfl, rfl, rfl, rfl, rfl, rfl, rfl, rfl, rfl, ?_, rfl, ?_⟩
  · simp only [removeEventHandler, h]
    rw [findById_updateFirstById store id (fun x => removeEventS x eventId now)
          (fun x => rfl), h]
    simp
  · simp only [removeEventS]
    exact List.filter_sublist s.events
  · intro hall
    simp only [removeEventS]
    exact List.filter_eq_self.mpr (fun a ha => by simpa using hall a ha)

/-- Witness for C6: removing a non-existent event id from a concrete stored
shipment leaves status and ledger unchanged. -/
theorem c6_witness :
    removeEventHandler [ship0] "id0" "nope" t1
      = (.ok (some (removeEventS ship0 "nope" t1)),
         updateFirstById [ship0] "id0" (fun x => removeEventS x "nope" t1)) ∧
    (removeEventS ship0 "nope" t1).status = ship0.status ∧
    (removeEventS ship0 "nope" t1).events = ship0.events := by
  have h := c6_remove_event [ship0] "id0" "nope" t1 ship0 (by decide)
  exact ⟨h.1, h.2.1, h.2.2.2.2.2.2.2.2.2.2.2.2.2 (by decide)⟩

/-! ## Claim C7 -/

/-- C7: the first registration (empty credential store, both fields
supplied non-empty) returns a session and persists exactly one credential;
any later registration (non-empty store) with supplied credentials fails
with RegistrationClosed, and every later call — whatever its fields —
leaves the credential store unchanged. -/
theorem c7_register (hash : String → String) (sign : Cred → String)
    (email password : String) (store : List Cred) (now : String) :
    (store = [] → email ≠ "" → password ≠ "" →
      registerHandler hash sign email password store now
        = (.session (sign ⟨jsToLower email, hash password, "admin", now⟩)
             (jsToLower email),
           [⟨jsToLower email, hash password, "admin", now⟩])) ∧
    (store ≠ [] → email ≠ "" → password ≠ "" →
      (registerHandler hash sign email password store now).1
        = .registrationClosed) ∧
    (store ≠ [] →
      (registerHandler hash sign email password store now).2 = store) := by
  refine ⟨?_, ?_, ?_⟩
  · intro hs he hp
    subst hs
    simp [registerHandler, he, hp]
  · intro hs he hp
    simp [registerHandler, he, hp, List.length_pos.mpr hs]
  · intro hs
    by_cases hmf : email = "" ∨ password = ""
    · simp [registerHandler, hmf]
    · simp [registerHandler, hmf, List.length_pos.mpr hs]

/-- The bcrypt collaborator instantiated for the witness. -/
def hashF : String → String := fun p => String.append "bcrypt$" p

/-- The token-signing collaborator instantiated for the witness. -/
def signF : Cred → String := fun c => String.append "token$" c.email

/-- A pre-existing credential for the closed-registration witness. -/
def cred0 : Cred := ⟨"a@b.com", "h", "admin", t0⟩

/-- Witness for C7: first registration succeeds; a registration against a
non-empty credential store is refused and changes nothing. -/
theorem c7_witness :
    registerHandler hashF signF "A@B.com" "secret1" [] t0
      = (.session (signF ⟨jsToLower "A@B.com", hashF "secret1", "admin", t0⟩)
           (jsToLower "A@B.com"),
         [⟨jsToLower "A@B.com", hashF "secret1", "admin", t0⟩]) ∧
    (registerHandler hashF signF "x@y.com" "pw" [cred0] t0).1
      = .registrationClosed ∧
    (registerHandler hashF signF "x@y.com" "pw" [cred0] t0).2 = [cred0] := by
  have h1 := c7_register hashF signF "A@B.com" "secret1" [] t0
  have h2 := c7_register hashF signF "x@y.com" "pw" [cred0] t0
  exact ⟨h1.1 rfl (by decide) (by decide),
         h2.2.1 (by decide) (by decide) (by decide),
         h2.2.2 (by decide)⟩

/-! ## Claim C8 -/

/-- C8: a created quote always carries status "new" and createdAt equal to
the creation time, even when the request body supplied its own values for
those fields, and every other supplied field is stored as given. -/
theorem c8_create_quote (q : List (String × String)) (now : String) :
    jsGet (createQuote q now) "status" = some "new" ∧
    jsGet (createQuote q now) "createdAt" = some now ∧
    (∀ k, k ≠ "status" → k ≠ "createdAt" →
      jsGet (createQuote q now) k = jsGet q k) := by
  refine ⟨?_, ?_, ?_⟩
  · unfold createQuote
    rw [jsGet_setKey_other (setKey q "status" "new") "createdAt" now "status"
          (by decide)]
    exact jsGet_setKey_self q "status" "new"
  · exact jsGet_setKey_self (setKey q "status" "new") "createdAt" now
  · intro k h1 h2
    unfold createQuote
    rw [jsGet_setKey_other (setKey q "status" "new") "createdAt" now k h2,
        jsGet_setKey_other q "status" "new" k h1]

/-- A quote request body that tries to smuggle its own status and
createdAt. -/
def quote0 : List (String × String) :=
  [("customer", "Jane Doe"), ("status", "approved"), ("createdAt", "1999-01-01")]

/-- Witness for C8: the caller-supplied status and createdAt are overridden
while the customer field is kept. -/
theorem c8_witness :
    jsGet (createQuote quote0 t0) "status" = some "new" ∧
    jsGet (createQuote quote0 t0) "createdAt" = some t0 ∧
    jsGet (createQuote quote0 t0) "customer" = jsGet quote0 "customer" := by
  have h := c8_create_quote quote0 t0
  exact ⟨h.1, h.2.1, h.2.2 "customer" (by decide) (by decide)⟩

/-! ## Claim C9 -/

/-- C9: shipment delete always answers `{ ok: true }`, afterwards no
shipment with the id remains (ids are unique in the store, as nedb
enforces), and a second delete of the same id again answers `{ ok: true }`
and leaves the store exactly as after the first. -/
theorem c9_delete_idempotent (store : ShipStore) (id : String)
    (h : (store.map Shipment._id).Nodup) :
    (deleteHandler store id).1 = true ∧
    findById (deleteHandler store id).2 id = none ∧
    (deleteHandler (deleteHandler store id).2 id).1 = true ∧
    (deleteHandler (deleteHandler store id).2 id).2
      = (deleteHandler store id).2 := by
  refine ⟨rfl, ?_, rfl, ?_⟩
  · exact findById_removeFirstById_of_nodup store id h
  · simp only [deleteHandler]
    exact removeFirstById_of_none _ id
      (findById_removeFirstById_of_nodup store id h)

/-- Witness for C9: deleting a concrete shipment twice. -/
theorem c9_witness :
    (deleteHandler [ship0] "id0").1 = true ∧
    findById (deleteHandler [ship0] "id0").2 "id0" = none ∧
    (deleteHandler (deleteHandler [ship0] "id0").2 "id0").1 = true ∧
    (deleteHandler (deleteHandler [ship0] "id0").2 "id0").2
      = (deleteHandler [ship0] "id0").2 :=
  c9_delete_idempotent [ship0] "id0" (by decide)

/-! ## Claim C10 -/

/-- C10: appending an event with the empty string as status behaves exactly
as if no status was supplied — the handler's result is identical, the new
front event's status defaults to "In Transit" and the shipment's status is
unchanged. -/
theorem c10_empty_status (store : ShipStore) (id : String) (body : AppendBody)
    (now eid : String) (s : Shipment)
    (h : findById store id = some s) (hb : body.status = some "") :
    appendEventHandler store id body now eid
      = appendEventHandler store id { body with status := none } now eid ∧
    ((appendEventS s body now eid).events.head?.map Event.status)
      = some "In Transit" ∧
    (appendEventS s body now eid).status = s.status := by
  have hf : (fun x => appendEventS x body now eid)
      = (fun x => appendEventS x { body with status := none } now eid) := by
    funext x
    simp [appendEventS, mkEvent, jsOrOpt, hb]
  refine ⟨?_, ?_, ?_⟩
  · simp only [appendEventHandler, h, hf]
  · simp [appendEventS, mkEvent, jsOrOpt, hb]
  · simp [appendEventS, jsOrOpt, hb]

/-- An append body whose status is the supplied empty string. -/
def bodyEmptyStatus : AppendBody := { status := some "" }

/-- Witness for C10: appending with an empty status to a concrete stored
shipment. -/
theorem c10_witness :
    appendEventHandler [ship0] "id0" bodyEmptyStatus t1 "EV2"
      = appendEventHandler [ship0] "id0"
          { bodyEmptyStatus with status := none } t1 "EV2" ∧
    ((appendEventS ship0 bodyEmptyStatus t1 "EV2").events.head?.map Event.status)
      = some "In Transit" ∧
    (appendEventS ship0 bodyEmptyStatus t1 "EV2").status = ship0.status :=
  c10_empty_status [ship0] "id0" bodyEmptyStatus t1 "EV2" ship0 (by decide) rfl

end Ship24
